import Mathlib

/-!
Verification of the Loca place-matching pipeline.

The definitions below are a shallow embedding of the pipeline code:

* `src/lib/keyword-extraction.ts` — per-establishment-type vocabularies,
  review-term extraction, cross-place keyword consensus, vibe keywords;
* `src/hooks/useSearch.ts` — the `useSearch` hook: rate-limit check,
  fingerprint/cache-key computation, results cache, the in-flight guard and
  the main `executeSearch` pipeline.

External services (rate-limit endpoint, geocoder, place-details, candidate
search, penalization lookup, image analysis, batch reasoning) are modelled as
oracles: each run of `executeSearch` consumes a fixed `Oracle` describing the
outcome every external call would produce, and returns the list of external
calls it actually performed. Review text is modelled as a list of words
(the code lowercases the concatenated review text and counts
word-boundary-delimited occurrences of each vocabulary term).
-/

namespace Loca

/-- The establishment-type enum (`EstablishmentType` in `src/types`). -/
inductive EstablishmentType
  | cafe
  | restaurant
  | museum
  | bar
  deriving DecidableEq, Repr

/-- String form of the establishment type, as serialized by `JSON.stringify`. -/
def EstablishmentType.toStr : EstablishmentType → String
  | .cafe => "cafe"
  | .restaurant => "restaurant"
  | .museum => "museum"
  | .bar => "bar"

/-! ## Vocabularies (`getRelevantTermsByType`, src/lib/keyword-extraction.ts) -/

/-- The shared common-atmosphere/amenity/service terms (`commonTerms`). -/
def commonTerms : List String :=
  ["cozy", "quiet", "spacious", "minimal", "modern", "rustic",
   "industrial", "warm", "bright", "intimate",
   "wifi", "outdoor", "patio", "garden", "view",
   "late night", "open late", "early morning",
   "friendly", "knowledgeable", "fresh", "quality", "excellent", "amazing"]

/-- Cafe-specific terms (`typeSpecificTerms.cafe`). -/
def cafeTerms : List String :=
  ["espresso", "cappuccino", "latte", "cortado", "macchiato", "americano",
   "pour over", "filter", "drip", "cold brew", "nitro",
   "single origin", "specialty", "third wave", "artisan", "craft",
   "light roast", "dark roast", "medium roast",
   "laptop", "workspace", "study", "work", "outlets", "co-working",
   "pastries", "croissant", "avocado toast", "bagel", "muffin",
   "barista", "roaster", "roastery"]

/-- Restaurant-specific terms (`typeSpecificTerms.restaurant`). -/
def restaurantTerms : List String :=
  ["italian", "french", "asian", "mediterranean", "mexican", "japanese",
   "indian", "thai", "chinese", "fusion", "contemporary",
   "fine dining", "casual", "bistro", "brasserie", "trattoria",
   "farm to table", "seasonal", "local ingredients",
   "breakfast", "brunch", "lunch", "dinner", "tasting menu",
   "michelin", "award winning", "chef", "signature dish",
   "wine list", "sommelier", "craft cocktails",
   "romantic", "date night", "family friendly", "business lunch"]

/-- Museum-specific terms (`typeSpecificTerms.museum`). -/
def museumTerms : List String :=
  ["art gallery", "contemporary art", "modern art", "classical",
   "sculpture", "painting", "photography", "installation",
   "exhibition", "collection", "permanent collection", "temporary",
   "interactive", "immersive", "hands-on", "guided tour",
   "history", "science", "natural history", "anthropology",
   "archaeology", "cultural", "heritage", "archives",
   "curator", "docent", "audio guide", "family friendly",
   "educational", "research", "restoration"]

/-- Bar-specific terms (`typeSpecificTerms.bar`). -/
def barTerms : List String :=
  ["cocktails", "craft beer", "wine bar", "whiskey", "gin",
   "bourbon", "mixology", "bartender", "craft cocktails",
   "IPA", "lager", "stout", "ale", "brewery", "tap list",
   "speakeasy", "dive bar", "pub", "lounge", "rooftop",
   "sports bar", "neighborhood bar", "cocktail bar",
   "live music", "DJ", "trivia", "karaoke", "pool table",
   "happy hour", "late night", "dancing", "nightlife",
   "upscale", "casual", "divey", "trendy", "classic"]

/-- Vocabulary for one establishment type: the common terms followed by the
type-specific terms (`getRelevantTermsByType`). -/
def getRelevantTermsByType (establishmentType : EstablishmentType) : List String :=
  commonTerms ++
    match establishmentType with
    | .cafe => cafeTerms
    | .restaurant => restaurantTerms
    | .museum => museumTerms
    | .bar => barTerms

/-! ## Occurrence counting

The code counts matches of the regex built as word boundary, the literal
term, word boundary, with global and case-insensitive flags, against the
lowercased review text. With text modelled as a word list, a term (itself a
word list, via splitting on spaces) matches at a position when it is a
prefix of the remaining text, comparing case-insensitively; the global flag
scans left to right and resumes after each match (non-overlapping).
`countOccSkip` implements that scan: after a match of `n` words it skips the
next `n - 1` positions. -/

/-- One step of the left-to-right non-overlapping scan. -/
def countOccSkip (tw : List String) : Nat → List String → Nat
  | _, [] => 0
  | skip+1, _ :: ws => countOccSkip tw skip ws
  | 0, w :: ws =>
    if !tw.isEmpty && tw.isPrefixOf (w :: ws) then
      1 + countOccSkip tw (tw.length - 1) ws
    else
      countOccSkip tw 0 ws

/-- Number of non-overlapping occurrences of the word sequence `tw` in `text`. -/
def countOcc (tw text : List String) : Nat :=
  countOccSkip tw 0 text

/-- Splitting a string at spaces, over its character list (the semantics of
splitting on a single-space separator). -/
def splitWordsAux : List Char → List Char → List String
  | [], acc => [String.mk acc.reverse]
  | c :: cs, acc =>
    if c = ' ' then String.mk acc.reverse :: splitWordsAux cs []
    else splitWordsAux cs (c :: acc)

/-- The words of a (vocabulary term) string. -/
def splitWords (t : String) : List String := splitWordsAux t.data []

/-- Lowercasing, over the character list (the semantics of
`String.toLowerCase`). -/
def lowerString (s : String) : String := String.mk (s.data.map Char.toLower)

/-- The word sequence of a vocabulary term, lowercased (the regex is built
from the term with the case-insensitive flag). -/
def termWords (t : String) : List String :=
  (splitWords t).map lowerString

/-- Model of `extractKeywordsFromText`: keep the vocabulary terms occurring at
least twice in the lowercased text, in vocabulary order, truncated to the
first 5 (`foundKeywords.slice(0, 5)`). The establishment type defaults to
`cafe` exactly as in the source. -/
def extractKeywordsFromText (text : List String)
    (establishmentType : EstablishmentType := .cafe) : List String :=
  let lowerText := text.map lowerString
  (List.filter (fun t => decide (2 ≤ countOcc (termWords t) lowerText))
    (getRelevantTermsByType establishmentType)).take 5

/-- Model of `extractKeywordsFromReviews`: the concatenated review text of one
place is run through `extractKeywordsFromText` with NO establishment type
argument (the source passes only the text, so the `cafe` default applies); a
failed review fetch resolves to the empty keyword list, modelled by an empty
word list. -/
def extractKeywordsFromReviews (reviewText : List String) : List String :=
  extractKeywordsFromText reviewText

/-! ## Keyword frequency map and consensus
(`extractKeywordsFromMultipleCafes`, src/lib/keyword-extraction.ts)

The JS `Map` keeps insertion order; it is modelled as an association list:
`bump` increments an existing key in place or appends a fresh key at the end,
exactly like `map.set(k, (map.get(k) || 0) + 1)`. -/

/-- Count stored in the frequency map for a key (0 when absent). -/
def lookupCount : List (String × Nat) → String → Nat
  | [], _ => 0
  | e :: m, k => if e.1 = k then e.2 else lookupCount m k

/-- Increment the count of `k`, preserving insertion order. -/
def bump : List (String × Nat) → String → List (String × Nat)
  | [], k => [(k, 1)]
  | e :: m, k => if e.1 = k then (e.1, e.2 + 1) :: m else e :: bump m k

/-- The frequency map of all per-place keyword arrays, in first-seen order. -/
def keywordFrequency (keywordArrays : List (List String)) : List (String × Nat) :=
  keywordArrays.foldl (fun m kws => kws.foldl bump m) []

/-- The comparator used to sort frequency entries: descending by count. The
JS sort (`(a, b) => b[1] - a[1]`) is stable; `List.insertionSort` with this
relation produces the same (unique) stable descending ordering. -/
def countDescOrder (a b : String × Nat) : Prop := b.2 ≤ a.2

instance : DecidableRel countDescOrder :=
  fun a b => inferInstanceAs (Decidable (b.2 ≤ a.2))

/-- The consensus computation: filter entries present in at least
`min 2 numberOfPlaces` counts, sort by count descending (stable), keep the
keys, truncate to the top 3. -/
def consensusKeywords (keywordArrays : List (List String)) (numPlaces : Nat) :
    List String :=
  ((List.insertionSort countDescOrder
      ((keywordFrequency keywordArrays).filter
        (fun e => decide (Nat.min 2 numPlaces ≤ e.2)))).map Prod.fst).take 3

/-- The vibe toggles (`VibeToggles` in `src/types`). -/
structure VibeToggles where
  roastery : Bool := false
  lightRoast : Bool := false
  laptopFriendly : Bool := false
  nightOwl : Bool := false
  cozy : Bool := false
  minimalist : Bool := false
  allowsDogs : Bool := false
  servesVegetarian : Bool := false
  brunch : Bool := false
  deriving DecidableEq, Repr

/-- Model of `buildVibeKeywords`. -/
def buildVibeKeywords (vibes : VibeToggles) : List String :=
  (if vibes.roastery then ["single origin", "roastery"] else []) ++
  (if vibes.lightRoast then ["filter", "pour over"] else []) ++
  (if vibes.laptopFriendly then ["laptop", "wifi"] else []) ++
  (if vibes.nightOwl then ["late", "night"] else []) ++
  (if vibes.cozy then ["cozy"] else []) ++
  (if vibes.minimalist then ["minimalist", "modern"] else []) ++
  (if vibes.allowsDogs then ["dog friendly", "pet friendly"] else []) ++
  (if vibes.servesVegetarian then ["vegetarian", "vegan"] else []) ++
  (if vibes.brunch then ["brunch", "breakfast"] else [])

/-- A `VibeToggles` value with no toggle set. The current `useSearch` hook
has no vibe toggles in its `SearchParams`, so its call into the extractor
carries no set toggle. -/
def emptyVibes : VibeToggles := {}

/-- The consensus keywords derived from the review texts of the source
places: each place's text is extracted (with the `cafe` default, as in the
source) and the per-place arrays are combined. -/
def consensusOf (reviewTexts : List (List String)) : List String :=
  consensusKeywords (reviewTexts.map (fun t => extractKeywordsFromText t))
    reviewTexts.length

/-- Model of `extractKeywordsFromMultipleCafes`: per-place review extraction,
consensus, then the final combined list, base terms first. -/
def extractKeywordsFromMultipleCafes (reviewTexts : List (List String))
    (vibes : VibeToggles) : List String :=
  ["cafe", "coffee"] ++ buildVibeKeywords vibes ++ consensusOf reviewTexts

/-- Step 4 of `executeSearch` (src/hooks/useSearch.ts): combine the extractor
output with the free-text keywords (`baseKeywords.slice(0, 3)` then
`freeTextKeywords.slice(0, 2)`, the whole list sliced to 5). -/
def customKeywordsOf (baseKeywords freeTextKeywords : List String) : List String :=
  (baseKeywords.take 3 ++ freeTextKeywords.take 2).take 5

/-! ## The search fingerprint (cache key)

`executeSearch` computes
`JSON.stringify({sourcePlaceIds: params.sourcePlaceIds.sort(), destinationCity,
freeText: params.freeText || '', establishmentType})`. `Array.prototype.sort`
sorts the identifiers lexicographically IN PLACE (it mutates the caller's
array) and `JSON.stringify` renders the object with its keys in literal
order, escaping string contents. -/

/-- Hexadecimal digit character. -/
def hexDigit (n : Nat) : Char :=
  if n < 10 then Char.ofNat (48 + n) else Char.ofNat (87 + n)

/-- JSON escape of one character, as produced by `JSON.stringify`. -/
def jsonEscapeChar (c : Char) : String :=
  if c = '"' then "\\\""
  else if c = '\\' then "\\\\"
  else if c = '\n' then "\\n"
  else if c = '\r' then "\\r"
  else if c = '\t' then "\\t"
  else if c.toNat = 8 then "\\b"
  else if c.toNat = 12 then "\\f"
  else if c.toNat < 32 then
    "\\u00" ++ String.singleton (hexDigit (c.toNat / 16)) ++
      String.singleton (hexDigit (c.toNat % 16))
  else String.singleton c

/-- JSON escape of a string body. -/
def jsonEscape (s : String) : String :=
  String.join (s.toList.map jsonEscapeChar)

/-- A JSON string literal. -/
def jsonString (s : String) : String :=
  "\"" ++ jsonEscape s ++ "\""

/-- A JSON array of string literals. -/
def jsonStringArray (l : List String) : String :=
  "[" ++ String.intercalate "," (l.map jsonString) ++ "]"

/-- Lexicographic comparison of character lists (by character code; place
identifiers and the other sorted strings are ASCII, where code-point order
coincides with the UTF-16 code-unit order used by the default
`Array.prototype.sort` comparator). -/
def charListLe : List Char → List Char → Bool
  | [], _ => true
  | _ :: _, [] => false
  | a :: as, b :: bs =>
    if a < b then true
    else if b < a then false
    else charListLe as bs

/-- Lexicographic order on strings. -/
def strLe (a b : String) : Prop := charListLe a.data b.data = true

instance : DecidableRel strLe :=
  fun a b => inferInstanceAs (Decidable (charListLe a.data b.data = true))

/-- Lexicographic sort of the identifier array (`Array.prototype.sort` with
the default comparator sorts strings lexicographically; `List.insertionSort`
with that order is a stable sort producing the same ordered result). -/
def sortStrings (l : List String) : List String :=
  List.insertionSort strLe l

/-- A search request (`SearchParams` in src/hooks/useSearch.ts). -/
structure SearchParams where
  sourcePlaceIds : List String
  sourceNames : List String
  destinationCity : String
  freeText : Option String
  establishmentType : EstablishmentType
  deriving DecidableEq, Repr

/-- The cache key rendered by `JSON.stringify` from the already-sorted
identifier list and the other request fields (`freeText` collapses a missing
value to the empty string via `params.freeText || ''`). -/
def cacheKeyString (sortedIds : List String) (destinationCity freeText : String)
    (establishmentType : EstablishmentType) : String :=
  "\x7b\"sourcePlaceIds\":" ++ jsonStringArray sortedIds ++
  ",\"destinationCity\":" ++ jsonString destinationCity ++
  ",\"freeText\":" ++ jsonString freeText ++
  ",\"establishmentType\":" ++ jsonString establishmentType.toStr ++ "\x7d"

/-- The search fingerprint of a request: the cache key computed on entry of
`executeSearch`. -/
def searchFingerprint (p : SearchParams) : String :=
  cacheKeyString (sortStrings p.sourcePlaceIds) p.destinationCity
    (p.freeText.getD "") p.establishmentType

/-! ## Hook state and oracles for the external services -/

/-- A latitude/longitude pair. No claim computes with coordinates, so they
are carried as integers. -/
structure LatLng where
  lat : Int
  lng : Int
  deriving DecidableEq, Repr

/-- The fields of a source or candidate place that the pipeline reads
(`PlaceBasicInfo`). -/
structure PlaceBasicInfo where
  id : String
  displayName : String
  rating : Option Nat := none
  userRatingCount : Option Nat := none
  priceLevel : Option Nat := none
  editorialSummary : Option String := none
  photos : List String := []
  deriving DecidableEq, Repr

/-- A scored candidate (`PlaceMatch`), progressively enriched with the image
analysis and the reasoning sentence. -/
structure PlaceMatch where
  place : PlaceBasicInfo
  matchedKeywords : List String := []
  imageAnalysis : Option String := none
  reasoning : Option String := none
  deriving DecidableEq, Repr

/-- The stored results state (`storage.getResultsState` /
`storage.setResultsState`): the hook keeps at most one entry, keyed by the
cache key of the search that produced it. -/
structure CacheEntry where
  key : String
  results : List PlaceMatch
  mapCenter : Option LatLng
  deriving DecidableEq, Repr

/-- The observable state of one `useSearch` hook instance: the four React
state cells, the persistent results cache, and the `isSearchInProgress`
ref. -/
structure HookState where
  results : List PlaceMatch
  isLoading : Bool
  error : Option String
  mapCenter : Option LatLng
  cache : Option CacheEntry
  inProgress : Bool
  deriving DecidableEq, Repr

/-- The body the rate-limit endpoint answered with (only the fields the hook
branches on). -/
structure RateLimitResponse where
  ok : Bool
  allowed : Bool
  deriving DecidableEq, Repr

/-- Outcome of the rate-limit fetch: a response, or a thrown network error. -/
inductive RateLimitOutcome
  | response (r : RateLimitResponse)
  | networkFailure (msg : String)
  deriving DecidableEq, Repr

/-- Outcome of geocoding the destination. -/
inductive GeocodeOutcome
  | found (center : LatLng)
  | zeroResults
  | otherStatus (status : String)
  deriving DecidableEq, Repr

/-- Outcome of the batch reasoning call: an OK response carrying the parsed
`reasonings` array, a non-OK response, or a thrown network error. -/
inductive ReasonOutcome
  | ok (reasonings : List String)
  | httpError
  | networkError
  deriving DecidableEq, Repr

/-- What `searchCafes` resolved with. -/
structure SearchPayload where
  results : List PlaceMatch
  hasMorePages : Bool
  deriving DecidableEq, Repr

/-- Fixed outcomes of every external call a run could make. -/
structure Oracle where
  rateLimit : RateLimitOutcome
  geocode : GeocodeOutcome
  details : String → Option PlaceBasicInfo
  reviews : String → List String
  freeTextKeywords : Option (List String)
  penalize : Option (List String)
  search : Except String SearchPayload
  analyzeImage : String → Option String
  reason : ReasonOutcome

/-- The external calls a run can perform, in order. -/
inductive ExtCall
  | rateLimitCheck
  | geocode (city : String)
  | placeDetails (placeId : String)
  | reviewsFetch (placeId : String)
  | freeTextAI
  | penalizationLookup
  | candidateSearch
  | analyzeImage (photoUrl : String)
  | reasonBatch
  deriving DecidableEq, Repr

/-! ## The client-side steps of `executeSearch` -/

/-- The user-facing rate-limit message; the reset-time arithmetic and
formatting is elided, since no claim depends on the text. -/
def rateLimitErrorMessage : String :=
  "You have reached your search limit of 10 searches per 12 hours."

/-- Model of `checkRateLimit` (src/hooks/useSearch.ts): a thrown fetch error
is rethrown; a non-OK response or `allowed: false` throws the rate-limit
message; only an OK and allowed response lets the pipeline continue. -/
def checkRateLimit (o : RateLimitOutcome) : Except String Unit :=
  match o with
  | .networkFailure msg => .error msg
  | .response r =>
    if !r.ok || !r.allowed then .error rateLimitErrorMessage
    else .ok ()

/-- Model of `geocodeDestination`. -/
def geocodeDestination (city : String) (o : GeocodeOutcome) : Except String LatLng :=
  match o with
  | .found center => .ok center
  | .zeroResults =>
    .error ("Could not find location for \"" ++ city ++
      "\". Please try another city or neighborhood.")
  | .otherStatus status => .error ("Failed to geocode destination: " ++ status)

/-- Model of `fetchSourcePlaces`: one place-details call per identifier; the
`Promise.all` rejects when any lookup fails. -/
def fetchSourcePlaces (details : String → Option PlaceBasicInfo) :
    List String → Except String (List PlaceBasicInfo)
  | [] => .ok []
  | pid :: rest =>
    match details pid with
    | none => .error ("Failed to load source place (" ++ pid ++ "): ERROR")
    | some info =>
      match fetchSourcePlaces details rest with
      | .error msg => .error msg
      | .ok infos => .ok (info :: infos)

/-- JS truthiness of the optional free text (`params.freeText ? ... : ...`):
the empty string is falsy. -/
def freeTextTruthy : Option String → Bool
  | some s => s != ""
  | none => false

/-- Per-candidate image enrichment (step 8): a candidate with at least one
photo gets the analysis outcome for its first photo URL (a timeout, error or
non-OK response leaves the field absent); a candidate without photos is
untouched. -/
def enrichWithImages (analyze : String → Option String) (l : List PlaceMatch) :
    List PlaceMatch :=
  l.map fun m =>
    match m.place.photos with
    | [] => m
    | url :: _ => { m with imageAnalysis := analyze url }

/-- The image-analysis calls performed by step 8: one per candidate that has
a photo. -/
def imageCallTrace (l : List PlaceMatch) : List ExtCall :=
  l.filterMap fun m =>
    match m.place.photos with
    | [] => none
    | url :: _ => some (.analyzeImage url)

/-- The fixed generic reasoning sentence. -/
def genericReasoning : String := "Similar vibe and quality."

/-- The reasoning applied to the candidate at index `i` on the OK path:
`reasonings?.[index] || 'Similar vibe and quality.'` — a missing entry or an
empty (falsy) string falls back to the generic sentence. -/
def reasonAt (reasonings : List String) (i : Nat) : String :=
  match reasonings.get? i with
  | some s => if s = "" then genericReasoning else s
  | none => genericReasoning

/-- Step 9 of `executeSearch`: on an OK response every match receives a
reasoning; on a non-OK response or a thrown error the matches are returned
untouched (`resultsWithReasoning` keeps its initial value
`enrichedResults`). -/
def applyReasonings (o : ReasonOutcome) (l : List PlaceMatch) : List PlaceMatch :=
  match o with
  | .ok reasonings =>
    l.enum.map fun im => { im.2 with reasoning := some (reasonAt reasonings im.1) }
  | .httpError => l
  | .networkError => l

/-- A failed pipeline stage: the catch block records the message
(`setError`). -/
def failState (s : HookState) (msg : String) : HookState :=
  { s with error := some msg }

/-- The try-block of `executeSearch` (steps 1 to 11), started after the
in-flight guard is set, the loading flag raised and the error cleared.
Returns the state before the `finally` block runs, together with the list of
external calls performed. -/
def pipelineBody (o : Oracle) (s : HookState) (p : SearchParams)
    (cacheKey : String) : HookState × List ExtCall :=
  match checkRateLimit o.rateLimit with
  | .error msg => (failState s msg, [.rateLimitCheck])
  | .ok _ =>
  match geocodeDestination p.destinationCity o.geocode with
  | .error msg => (failState s msg, [.rateLimitCheck, .geocode p.destinationCity])
  | .ok center =>
  let s := { s with mapCenter := some center }
  let tr := [ExtCall.rateLimitCheck, .geocode p.destinationCity] ++
    p.sourcePlaceIds.map .placeDetails
  match fetchSourcePlaces o.details p.sourcePlaceIds with
  | .error msg => (failState s msg, tr)
  | .ok originPlaces =>
  if originPlaces.isEmpty then
    (failState s
      "Could not load your reference places. Please re-select them and try again.",
     tr)
  else
  let doKeywords := decide (1 < originPlaces.length) || freeTextTruthy p.freeText
  let kwTrace :=
    if doKeywords then
      originPlaces.map (fun pl => ExtCall.reviewsFetch pl.id) ++
        (if freeTextTruthy p.freeText then [ExtCall.freeTextAI] else [])
    else []
  let customKeywords : Option (List String) :=
    if doKeywords then
      let baseKeywords :=
        extractKeywordsFromMultipleCafes
          (originPlaces.map (fun pl => o.reviews pl.id)) emptyVibes
      let freeTextKeywords :=
        if freeTextTruthy p.freeText then o.freeTextKeywords.getD [] else []
      some (customKeywordsOf baseKeywords freeTextKeywords)
    else none
  let _ := customKeywords
  let _ := o.penalize.getD []
  let tr := tr ++ kwTrace ++ [ExtCall.penalizationLookup, ExtCall.candidateSearch]
  match o.search with
  | .error msg => (failState s msg, tr)
  | .ok payload =>
  let enriched := enrichWithImages o.analyzeImage payload.results
  let tr := tr ++ imageCallTrace payload.results ++ [ExtCall.reasonBatch]
  let finalResults := applyReasonings o.reason enriched
  ({ s with results := finalResults,
            cache := some ⟨cacheKey, finalResults, some center⟩ },
   tr)

/-- The non-cached execution path: raise the guard and the loading flag,
clear the error, run the pipeline, and in the guaranteed `finally` block
clear the loading flag and the guard (success and failure alike). -/
def runPipeline (o : Oracle) (s : HookState) (p : SearchParams)
    (cacheKey : String) : HookState × List ExtCall :=
  let started := { s with inProgress := true, isLoading := true, error := none }
  let r := pipelineBody o started p cacheKey
  ({ r.1 with isLoading := false, inProgress := false }, r.2)

/-- Model of `executeSearch`. The third component of the result is the
request object as the caller observes it afterwards:
`params.sourcePlaceIds.sort()` sorts the caller's array in place, so on every
run that passes the in-flight guard the identifiers come back sorted. A call
rejected by the guard returns before touching anything. A run whose cache key
matches the stored entry serves the stored results and map center and
performs no external call. -/
def executeSearch (o : Oracle) (s : HookState) (p : SearchParams) :
    HookState × List ExtCall × SearchParams :=
  if s.inProgress then (s, [], p)
  else
    let sortedIds := sortStrings p.sourcePlaceIds
    let mutated := { p with sourcePlaceIds := sortedIds }
    let cacheKey := cacheKeyString sortedIds p.destinationCity
      (p.freeText.getD "") p.establishmentType
    match s.cache with
    | some entry =>
      if entry.key = cacheKey then
        ({ s with results := entry.results,
                  mapCenter := match entry.mapCenter with
                    | some c => some c
                    | none => s.mapCenter,
                  isLoading := false },
         [], mutated)
      else
        let r := runPipeline o s mutated cacheKey
        (r.1, r.2, mutated)
    | none =>
      let r := runPipeline o s mutated cacheKey
      (r.1, r.2, mutated)

/-- Outcome of the rate-limit endpoint's read of the persistent counter
store. -/
inductive StoreOutcome
  | available (allowed : Bool)
  | storeError
  deriving DecidableEq, Repr

/-- The final keyword list as claim C7 words it (for comparison with the
code's `customKeywordsOf`): the base terms, then at most 3 consensus terms,
then at most 2 free-text terms — at most 5 in total excluding the base
terms. -/
def claimedFinalKeywords (consensusTerms freeTextTerms : List String) :
    List String :=
  ["cafe", "coffee"] ++ consensusTerms.take 3 ++ freeTextTerms.take 2

/-- Modelled from the spec: the POST rate-limit check route handler is not
under src/ (only the hook calling it is). Per the spec's design notes, "the
source repository's rate limiter silently defaults to permissive behavior if
the persistent store throws (falls through to 'allowed')": a store error is
caught by the handler, which answers OK and allowed, instead of surfacing the
failure. -/
def rateLimitEndpoint : StoreOutcome → RateLimitOutcome
  | .available allowed => .response ⟨true, allowed⟩
  | .storeError => .response ⟨true, true⟩

/-- A bare candidate match used in the reasoning theorems. -/
def c5Match : PlaceMatch := { place := { id := "cand", displayName := "Candidate" } }

/-- Number of source places whose extracted keyword array contains `t` (the
extraction runs with the source's `cafe` default). -/
def presentCount (t : String) (texts : List (List String)) : Nat :=
  texts.countP (fun tx => decide (t ∈ extractKeywordsFromText tx))

/-- Review text of a single source place containing the first six common
vocabulary terms twice each. -/
def c6Text : List String :=
  ["cozy", "cozy", "quiet", "quiet", "spacious", "spacious",
   "minimal", "minimal", "modern", "modern", "rustic", "rustic"]

/-- Review texts of two source places agreeing on two terms. -/
def c7Texts : List (List String) :=
  [["cozy", "cozy", "quiet", "quiet"], ["cozy", "cozy", "quiet", "quiet"]]

/-! ## Concrete fixtures used by the witness and evaluation theorems -/

/-- An oracle whose every call succeeds. -/
def plainOracle : Oracle where
  rateLimit := .response ⟨true, true⟩
  geocode := .found ⟨48, 2⟩
  details := fun pid => some { id := pid, displayName := "Source" }
  reviews := fun _ => []
  freeTextKeywords := none
  penalize := none
  search := .ok ⟨[{ place := { id := "cand", displayName := "Candidate",
                               photos := ["photo1"] } }], false⟩
  analyzeImage := fun _ => none
  reason := .ok ["Close match."]

/-- An idle hook state with nothing cached and no error. -/
def plainState : HookState where
  results := []
  isLoading := false
  error := none
  mapCenter := none
  cache := none
  inProgress := false

/-- A simple one-source-place request. -/
def plainParams : SearchParams where
  sourcePlaceIds := ["p1"]
  sourceNames := ["Source"]
  destinationCity := "Paris"
  freeText := none
  establishmentType := .cafe

/-- A cached entry for `plainParams`, as written by an earlier successful
run. -/
def plainEntry : CacheEntry where
  key := searchFingerprint plainParams
  results := [{ place := { id := "cached-cand", displayName := "Cached" },
                reasoning := some "Close match." }]
  mapCenter := some ⟨10, 20⟩

/-- The idle state holding `plainEntry`. -/
def cachedState : HookState := { plainState with cache := some plainEntry }

/-- The idle state holding `plainEntry` together with an error left over from
an earlier failed search. -/
def cachedErrorState : HookState :=
  { plainState with cache := some plainEntry, error := some "earlier search failed" }

/-! ## Order facts for the sort comparator -/

theorem charListLe_total : ∀ x y : List Char,
    charListLe x y = true ∨ charListLe y x = true := by
  intro x
  induction x with
  | nil => intro y; left; simp [charListLe]
  | cons a as ih =>
    intro y
    cases y with
    | nil => right; simp [charListLe]
    | cons b bs =>
      rcases lt_trichotomy a b with h | h | h
      · left; simp [charListLe, h]
      · subst h
        rcases ih bs with h2 | h2
        · left; simp [charListLe, lt_irrefl, h2]
        · right; simp [charListLe, lt_irrefl, h2]
      · right; simp [charListLe, h]

theorem charListLe_trans : ∀ x y z : List Char,
    charListLe x y = true → charListLe y z = true → charListLe x z = true := by
  intro x
  induction x with
  | nil => intro y z _ _; simp [charListLe]
  | cons a as ih =>
    intro y z hxy hyz
    cases y with
    | nil => simp [charListLe] at hxy
    | cons b bs =>
      cases z with
      | nil => simp [charListLe] at hyz
      | cons c cs =>
        by_cases hab : a < b
        · by_cases hbc : b < c
          · simp [charListLe, lt_trans hab hbc]
          · by_cases hcb : c < b
            · simp [charListLe, hbc, hcb] at hyz
            · have hbce : b = c := le_antisymm (not_lt.mp hcb) (not_lt.mp hbc)
              subst hbce
              simp [charListLe, hab]
        · by_cases hba : b < a
          · simp [charListLe, hab, hba] at hxy
          · have habe : a = b := le_antisymm (not_lt.mp hba) (not_lt.mp hab)
            subst habe
            simp only [charListLe, lt_irrefl, if_false] at hxy
            by_cases hac : a < c
            · simp [charListLe, hac]
            · by_cases hca : c < a
              · simp [charListLe, hac, hca] at hyz
              · have hace : a = c := le_antisymm (not_lt.mp hca) (not_lt.mp hac)
                subst hace
                simp only [charListLe, lt_irrefl, if_false] at hyz ⊢
                exact ih bs cs hxy hyz

theorem charListLe_antisymm : ∀ x y : List Char,
    charListLe x y = true → charListLe y x = true → x = y := by
  intro x
  induction x with
  | nil =>
    intro y _ h2
    cases y with
    | nil => rfl
    | cons b bs => simp [charListLe] at h2
  | cons a as ih =>
    intro y h1 h2
    cases y with
    | nil => simp [charListLe] at h1
    | cons b bs =>
      by_cases hab : a < b
      · simp [charListLe, hab, asymm hab] at h2
      · by_cases hba : b < a
        · simp [charListLe, hab, hba] at h1
        · have habe : a = b := le_antisymm (not_lt.mp hba) (not_lt.mp hab)
          subst habe
          simp only [charListLe, lt_irrefl, if_false] at h1 h2
          rw [ih bs h1 h2]

/-! ## C1 — cache hit serves stored results without external calls -/

/-- C1: if the in-flight guard is clear and the stored cache entry's key
equals the fingerprint of the request, `executeSearch` returns the stored
results and map center and performs no external call (no rate-limit check,
geocoding, place details, review fetch, free-text call, penalization lookup,
candidate search, image analysis or reasoning call). -/
theorem cacheHit_serves_cached_without_external_calls
    (o : Oracle) (s : HookState) (p : SearchParams) (entry : CacheEntry)
    (hg : s.inProgress = false) (hc : s.cache = some entry)
    (hk : entry.key = searchFingerprint p) :
    (executeSearch o s p).1.results = entry.results ∧
    (executeSearch o s p).2.1 = [] ∧
    (executeSearch o s p).1.mapCenter =
      (match entry.mapCenter with | some c => some c | none => s.mapCenter) := by
  unfold executeSearch
  rw [hg]
  simp only [Bool.false_eq_true, if_false, hc]
  rw [if_pos (by simpa [searchFingerprint] using hk)]
  exact ⟨rfl, rfl, rfl⟩

/-- Witness for C1 at a concrete cached state. -/
theorem cacheHit_serves_cached_without_external_calls_witness :
    (executeSearch plainOracle cachedState plainParams).1.results = plainEntry.results ∧
    (executeSearch plainOracle cachedState plainParams).2.1 = [] ∧
    (executeSearch plainOracle cachedState plainParams).1.mapCenter =
      (match plainEntry.mapCenter with
        | some c => some c
        | none => cachedState.mapCenter) :=
  cacheHit_serves_cached_without_external_calls plainOracle cachedState plainParams
    plainEntry rfl rfl rfl

/-! ## C2 — the fingerprint is invariant under permutation of the ids -/

/-- C2: two requests that agree on destination, free text and establishment
type and whose source place identifier arrays are permutations of each other
produce the same cache key string. -/
theorem fingerprint_invariant_under_permutation (p q : SearchParams)
    (hids : p.sourcePlaceIds.Perm q.sourcePlaceIds)
    (hdest : p.destinationCity = q.destinationCity)
    (hfree : p.freeText = q.freeText)
    (hty : p.establishmentType = q.establishmentType) :
    searchFingerprint p = searchFingerprint q := by
  haveI : IsTotal String strLe := ⟨fun a b => charListLe_total a.data b.data⟩
  haveI : IsTrans String strLe :=
    ⟨fun a b c hab hbc => charListLe_trans a.data b.data c.data hab hbc⟩
  haveI : IsAntisymm String strLe :=
    ⟨fun a b hab hba =>
      String.toList_inj.mp (charListLe_antisymm a.data b.data hab hba)⟩
  have hsort : sortStrings p.sourcePlaceIds = sortStrings q.sourcePlaceIds :=
    List.eq_of_perm_of_sorted
      ((List.perm_insertionSort _ _).trans
        (hids.trans (List.perm_insertionSort _ _).symm))
      (List.sorted_insertionSort _ _) (List.sorted_insertionSort _ _)
  unfold searchFingerprint
  rw [hsort, hdest, hfree, hty]

/-- Witness for C2 at two concretely permuted requests. -/
theorem fingerprint_invariant_under_permutation_witness :
    searchFingerprint ⟨["b", "a"], ["S1", "S2"], "Paris", none, .cafe⟩ =
    searchFingerprint ⟨["a", "b"], ["S1", "S2"], "Paris", none, .cafe⟩ :=
  fingerprint_invariant_under_permutation _ _ (by decide) rfl rfl rfl

/-! ## C3 — single-flight guard and guaranteed cleanup -/

/-- C3: a call made while the in-flight guard is set returns immediately with
the state untouched (results, error, cache unchanged), the request untouched
and no external call; and any call made with the guard clear terminates with
the guard and the loading indicator cleared, on the cached path and on the
success and failure paths of the pipeline alike. -/
theorem singleFlight_guard_and_cleanup (o : Oracle) (s : HookState)
    (p : SearchParams) :
    (s.inProgress = true → executeSearch o s p = (s, [], p)) ∧
    (s.inProgress = false →
      (executeSearch o s p).1.inProgress = false ∧
      (executeSearch o s p).1.isLoading = false) := by
  constructor
  · intro h
    unfold executeSearch
    rw [h]
    rfl
  · intro h
    unfold executeSearch
    rw [h]
    simp only [Bool.false_eq_true, if_false]
    constructor
    · split
      · split
        · rfl
        · rfl
      · rfl
    · split
      · split
        · rfl
        · rfl
      · rfl

/-- Witness for C3: a concrete guarded call is a no-op, and a concrete
unguarded call ends with guard and loading flag cleared. -/
theorem singleFlight_guard_and_cleanup_witness :
    executeSearch plainOracle { plainState with inProgress := true } plainParams =
      ({ plainState with inProgress := true }, [], plainParams) ∧
    ((executeSearch plainOracle plainState plainParams).1.inProgress = false ∧
      (executeSearch plainOracle plainState plainParams).1.isLoading = false) :=
  ⟨(singleFlight_guard_and_cleanup plainOracle
      { plainState with inProgress := true } plainParams).1 rfl,
   (singleFlight_guard_and_cleanup plainOracle plainState plainParams).2 rfl⟩

/-! ## C9 — `executeSearch` mutates the request's identifier array -/

/-- C9 (amended): a call rejected by the in-flight guard leaves the request
untouched; every other call returns the request with its `sourcePlaceIds`
array sorted in place (a permutation of the original, equal to it when it
was already sorted) and every other field unchanged. -/
theorem executeSearch_request_mutation (o : Oracle) (s : HookState)
    (p : SearchParams) :
    (s.inProgress = true → (executeSearch o s p).2.2 = p) ∧
    (s.inProgress = false →
      (executeSearch o s p).2.2 =
        { p with sourcePlaceIds := sortStrings p.sourcePlaceIds } ∧
      (sortStrings p.sourcePlaceIds).Perm p.sourcePlaceIds) := by
  constructor
  · intro h
    unfold executeSearch
    rw [h]
    rfl
  · intro h
    refine ⟨?_, List.perm_insertionSort _ _⟩
    unfold executeSearch
    rw [h]
    simp only [Bool.false_eq_true, if_false]
    split
    · split
      · rfl
      · rfl
    · rfl

/-- Counterexample to C9 as stated: after a call with identifiers
`["b", "a"]`, the caller's array holds `["a", "b"]`, not its original
value. -/
theorem executeSearch_request_mutation_counterexample :
    (executeSearch plainOracle plainState
        ⟨["b", "a"], ["S1", "S2"], "Paris", none, .cafe⟩).2.2.sourcePlaceIds =
      ["a", "b"] ∧
    decide ((["a", "b"] : List String) = ["b", "a"]) = false := by
  exact ⟨by decide, by decide⟩

/-- Witness for the amended C9 at a concrete call. -/
theorem executeSearch_request_mutation_witness :
    (executeSearch plainOracle plainState
        ⟨["b", "a"], ["S1", "S2"], "Paris", none, .cafe⟩).2.2 =
      { (⟨["b", "a"], ["S1", "S2"], "Paris", none, .cafe⟩ : SearchParams) with
          sourcePlaceIds := sortStrings ["b", "a"] } ∧
    (sortStrings ["b", "a"]).Perm ["b", "a"] :=
  (executeSearch_request_mutation plainOracle plainState
    ⟨["b", "a"], ["S1", "S2"], "Paris", none, .cafe⟩).2 rfl

/-! ## C10 — a cache hit leaves a previous error message in place -/

/-- C10: on the cached path the error cell is not written: whatever error an
earlier failed search left behind persists alongside the freshly served
cached results (the error is reset only on the non-cached execution path). -/
theorem cacheHit_preserves_previous_error
    (o : Oracle) (s : HookState) (p : SearchParams) (entry : CacheEntry)
    (hg : s.inProgress = false) (hc : s.cache = some entry)
    (hk : entry.key = searchFingerprint p) :
    (executeSearch o s p).1.error = s.error ∧
    (executeSearch o s p).1.results = entry.results := by
  unfold executeSearch
  rw [hg]
  simp only [Bool.false_eq_true, if_false, hc]
  rw [if_pos (by simpa [searchFingerprint] using hk)]
  exact ⟨rfl, rfl⟩

/-- Witness for C10: a concrete cache hit serves the stored results while the
earlier error message is still present afterwards. -/
theorem cacheHit_preserves_previous_error_witness :
    (executeSearch plainOracle cachedErrorState plainParams).1.error =
      cachedErrorState.error ∧
    (executeSearch plainOracle cachedErrorState plainParams).1.results =
      plainEntry.results :=
  cacheHit_preserves_previous_error plainOracle cachedErrorState plainParams
    plainEntry rfl rfl rfl

/-! ## C4 — rate-limit check under infrastructure failure -/

/-- C4 evaluated at the failing input: when the persistent store errors
during the rate-limit check (with the endpoint itself reachable), the check
comes back allowed, and the pipeline proceeds to geocoding and the candidate
search with no error recorded — fail-open, contradicting the claim that the
request is treated as not allowed and the pipeline aborts. -/
theorem rateLimit_store_failure_proceeds :
    checkRateLimit (rateLimitEndpoint .storeError) = .ok () ∧
    (executeSearch { plainOracle with rateLimit := rateLimitEndpoint .storeError }
        plainState plainParams).1.error = none ∧
    ExtCall.geocode "Paris" ∈
      (executeSearch { plainOracle with rateLimit := rateLimitEndpoint .storeError }
        plainState plainParams).2.1 ∧
    ExtCall.candidateSearch ∈
      (executeSearch { plainOracle with rateLimit := rateLimitEndpoint .storeError }
        plainState plainParams).2.1 := by
  refine ⟨rfl, rfl, by decide, by decide⟩

/-! ## C5 — failed batch reasoning leaves the reasoning fields absent -/

/-- Counterexample to C5 as stated: with the batch reasoning call failing
(thrown network error, and likewise a non-OK response), the returned match
carries NO reasoning field, not the fixed generic sentence. -/
theorem reasoning_call_failure_counterexample :
    ((executeSearch { plainOracle with reason := .networkError }
        plainState plainParams).1.results.map (fun m => m.reasoning)) = [none] ∧
    ((executeSearch { plainOracle with reason := .httpError }
        plainState plainParams).1.results.map (fun m => m.reasoning)) = [none] ∧
    decide (([none] : List (Option String)) = [some genericReasoning]) = false := by
  exact ⟨rfl, rfl, by decide⟩

/-- C5 (amended): when the batch reasoning call fails — thrown error or
non-OK response — every match is returned with its reasoning field untouched
(uniformly absent for fresh matches), never a mix; the fixed generic sentence
is applied per candidate only on the OK path, when the returned array has no
entry (or an empty entry) at that candidate's index. -/
theorem reasoning_failure_uniformly_absent (l : List PlaceMatch)
    (rs : List String) :
    applyReasonings .networkError l = l ∧
    applyReasonings .httpError l = l ∧
    (∀ m ∈ applyReasonings (.ok rs) l, m.reasoning.isSome = true) ∧
    (∀ i : Nat, (applyReasonings (.ok rs) l)[i]? =
      l[i]?.map fun m => { m with reasoning := some (reasonAt rs i) }) := by
  refine ⟨rfl, rfl, ?_, ?_⟩
  · intro m hm
    simp only [applyReasonings] at hm
    rcases List.mem_map.mp hm with ⟨im, _, rfl⟩
    rfl
  · intro i
    simp only [applyReasonings]
    rw [List.getElem?_map, List.getElem?_enum]
    cases l[i]? with
    | none => rfl
    | some m => rfl

/-- Witness for the amended C5 at a concrete match list. -/
theorem reasoning_failure_uniformly_absent_witness :
    applyReasonings .networkError [c5Match] = [c5Match] ∧
    ({ c5Match with reasoning := some (reasonAt ["Great spot."] 0) } :
        PlaceMatch).reasoning.isSome = true :=
  ⟨(reasoning_failure_uniformly_absent [c5Match] ["Great spot."]).1,
   (reasoning_failure_uniformly_absent [c5Match] ["Great spot."]).2.2.1 _ (by decide)⟩

/-! ## C6 — keyword consensus machinery -/

theorem lookupCount_bump (m : List (String × Nat)) (k t : String) :
    lookupCount (bump m k) t = lookupCount m t + if t = k then 1 else 0 := by
  induction m with
  | nil =>
    simp only [bump, lookupCount]
    by_cases h : k = t
    · subst h; simp
    · rw [if_neg h, if_neg (fun heq => h heq.symm)]
  | cons e m ih =>
    simp only [bump]
    by_cases he : e.1 = k
    · rw [if_pos he]
      simp only [lookupCount]
      by_cases ht : e.1 = t
      · have htk : t = k := by rw [← ht, he]
        rw [if_pos ht, if_pos ht, if_pos htk]
      · have htk : ¬ t = k := fun h => ht (by rw [he, ← h])
        rw [if_neg ht, if_neg ht, if_neg htk, Nat.add_zero]
    · rw [if_neg he]
      simp only [lookupCount]
      by_cases ht : e.1 = t
      · have htk : ¬ t = k := fun h => he (by rw [ht, h])
        rw [if_pos ht, if_pos ht, if_neg htk, Nat.add_zero]
      · rw [if_neg ht, if_neg ht]
        exact ih

theorem lookupCount_foldl_bump (kws : List String) :
    ∀ (m : List (String × Nat)) (t : String),
      lookupCount (kws.foldl bump m) t = lookupCount m t + kws.count t := by
  induction kws with
  | nil => intro m t; simp
  | cons k ks ih =>
    intro m t
    simp only [List.foldl_cons]
    rw [ih, lookupCount_bump, List.count_cons]
    by_cases h : t = k
    · simp [h]; omega
    · simp [h, Ne.symm h]

theorem lookupCount_keywordFrequency (arrays : List (List String)) (t : String) :
    lookupCount (keywordFrequency arrays) t =
      (arrays.map (fun a => a.count t)).sum := by
  suffices h : ∀ m, lookupCount (arrays.foldl (fun m kws => kws.foldl bump m) m) t =
      lookupCount m t + (arrays.map (fun a => a.count t)).sum by
    simpa [keywordFrequency, lookupCount] using h []
  induction arrays with
  | nil => intro m; simp
  | cons a as ih =>
    intro m
    simp only [List.foldl_cons, List.map_cons, List.sum_cons]
    rw [ih, lookupCount_foldl_bump]
    omega

theorem bump_keys (m : List (String × Nat)) (k : String) :
    (bump m k).map Prod.fst =
      if k ∈ m.map Prod.fst then m.map Prod.fst
      else m.map Prod.fst ++ [k] := by
  induction m with
  | nil => simp [bump]
  | cons e m ih =>
    simp only [bump]
    by_cases he : e.1 = k
    · rw [if_pos he]
      simp [he]
    · rw [if_neg he]
      simp only [List.map_cons, ih]
      by_cases hk : k ∈ m.map Prod.fst
      · rw [if_pos hk, if_pos (List.mem_cons_of_mem _ hk)]
      · have hnk : k ∉ e.1 :: m.map Prod.fst := by
          intro hmem
          rcases List.mem_cons.mp hmem with h | h
          · exact he h.symm
          · exact hk h
        rw [if_neg hk, if_neg hnk]
        rfl

theorem keys_nodup_bump (m : List (String × Nat)) (k : String)
    (h : (m.map Prod.fst).Nodup) : ((bump m k).map Prod.fst).Nodup := by
  rw [bump_keys]
  by_cases hk : k ∈ m.map Prod.fst
  · rw [if_pos hk]; exact h
  · rw [if_neg hk]
    simp [List.nodup_append, h, hk]

theorem keys_nodup_foldl (kws : List String) :
    ∀ m : List (String × Nat), (m.map Prod.fst).Nodup →
      ((kws.foldl bump m).map Prod.fst).Nodup := by
  induction kws with
  | nil => intro m h; exact h
  | cons k ks ih => intro m h; exact ih _ (keys_nodup_bump m k h)

theorem keys_nodup_keywordFrequency (arrays : List (List String)) :
    ((keywordFrequency arrays).map Prod.fst).Nodup := by
  suffices h : ∀ m : List (String × Nat), (m.map Prod.fst).Nodup →
      ((arrays.foldl (fun m kws => kws.foldl bump m) m).map Prod.fst).Nodup by
    exact h [] (by simp)
  induction arrays with
  | nil => intro m h; exact h
  | cons a as ih => intro m h; exact ih _ (keys_nodup_foldl a m h)

theorem mem_lookupCount (m : List (String × Nat))
    (h : (m.map Prod.fst).Nodup) :
    ∀ e ∈ m, lookupCount m e.1 = e.2 := by
  induction m with
  | nil => intro e he; cases he
  | cons f m ih =>
    intro e he
    rcases List.mem_cons.mp he with rfl | hm
    · simp [lookupCount]
    · simp only [lookupCount]
      have hne : f.1 ≠ e.1 := by
        intro hfe
        exact (List.nodup_cons.mp h).1 (hfe ▸ List.mem_map_of_mem Prod.fst hm)
      rw [if_neg hne]
      exact ih (List.nodup_cons.mp h).2 e hm

theorem count_of_nodup (a : List String) (t : String) (h : a.Nodup) :
    a.count t = if t ∈ a then 1 else 0 := by
  by_cases ht : t ∈ a
  · rw [if_pos ht]
    exact List.count_eq_one_of_mem h ht
  · rw [if_neg ht]
    exact List.count_eq_zero_of_not_mem ht

theorem sum_counts_eq_countP (t : String) (arrays : List (List String))
    (h : ∀ a ∈ arrays, a.Nodup) :
    (arrays.map (fun a => a.count t)).sum =
      arrays.countP (fun a => decide (t ∈ a)) := by
  induction arrays with
  | nil => simp
  | cons a as ih =>
    simp only [List.map_cons, List.sum_cons, List.countP_cons]
    rw [count_of_nodup a t (h a (List.mem_cons_self a as)),
      ih (fun x hx => h x (List.mem_cons_of_mem a hx))]
    by_cases ht : t ∈ a
    · simp [ht]; omega
    · simp [ht]

theorem freq_entry_count (arrays : List (List String))
    (h : ∀ a ∈ arrays, a.Nodup) :
    ∀ e ∈ keywordFrequency arrays,
      e.2 = arrays.countP (fun a => decide (e.1 ∈ a)) := by
  intro e he
  have h1 := mem_lookupCount (keywordFrequency arrays)
    (keys_nodup_keywordFrequency arrays) e he
  rw [← h1, lookupCount_keywordFrequency, sum_counts_eq_countP _ _ h]

theorem cafeVocab_nodup : (getRelevantTermsByType .cafe).Nodup := by decide

theorem extractKeywordsFromText_nodup (text : List String) :
    (extractKeywordsFromText text).Nodup :=
  (List.take_sublist 5 _).nodup (cafeVocab_nodup.filter _)

theorem extract_arrays_nodup (texts : List (List String)) :
    ∀ a ∈ texts.map (fun t => extractKeywordsFromText t), a.Nodup := by
  intro a ha
  rcases List.mem_map.mp ha with ⟨tx, _, rfl⟩
  exact extractKeywordsFromText_nodup tx

theorem presentCount_of_entry (texts : List (List String)) (e : String × Nat)
    (he : e ∈ keywordFrequency (texts.map (fun t => extractKeywordsFromText t))) :
    presentCount e.1 texts = e.2 := by
  rw [freq_entry_count _ (extract_arrays_nodup texts) e he, List.countP_map]
  rfl

theorem bump_of_not_mem (m : List (String × Nat)) (k : String)
    (h : k ∉ m.map Prod.fst) : bump m k = m ++ [(k, 1)] := by
  induction m with
  | nil => rfl
  | cons e m ih =>
    simp only [bump]
    have hne : e.1 ≠ k := by
      intro he
      exact h (by simp [he])
    rw [if_neg hne, ih (fun hm => h (List.mem_cons_of_mem _ hm))]
    rfl

theorem foldl_bump_fresh (kws : List String) :
    ∀ m : List (String × Nat), kws.Nodup →
      (∀ k ∈ kws, k ∉ m.map Prod.fst) →
      kws.foldl bump m = m ++ kws.map (fun k => (k, 1)) := by
  induction kws with
  | nil => intro m _ _; simp
  | cons k ks ih =>
    intro m hnd hfresh
    simp only [List.foldl_cons]
    rw [bump_of_not_mem m k (hfresh k (List.mem_cons_self k ks))]
    rw [ih (m ++ [(k, 1)]) (List.nodup_cons.mp hnd).2 ?fresh]
    · simp
    case fresh =>
      intro k2 hk2
      rw [List.map_append]
      intro hmem
      rcases List.mem_append.mp hmem with h | h
      · exact hfresh k2 (List.mem_cons_of_mem _ hk2) h
      · simp only [List.map_cons, List.map_nil, List.mem_singleton] at h
        exact (List.nodup_cons.mp hnd).1 (h ▸ hk2)

theorem insertionSort_all_ones (l : List (String × Nat))
    (h : ∀ e ∈ l, e.2 = 1) :
    List.insertionSort countDescOrder l = l := by
  induction l with
  | nil => rfl
  | cons x xs ih =>
    simp only [List.insertionSort]
    rw [ih (fun e he => h e (List.mem_cons_of_mem x he))]
    cases xs with
    | nil => rfl
    | cons y ys =>
      simp only [List.orderedInsert]
      rw [if_pos ?cond]
      case cond =>
        show y.2 ≤ x.2
        rw [h x (List.mem_cons_self _ _),
          h y (List.mem_cons_of_mem _ (List.mem_cons_self _ _))]

theorem consensusOf_single (text : List String) :
    consensusOf [text] = (extractKeywordsFromText text).take 3 := by
  unfold consensusOf consensusKeywords
  simp only [List.map_cons, List.map_nil, List.length_cons, List.length_nil]
  have hnd := extractKeywordsFromText_nodup text
  have h1 : keywordFrequency [extractKeywordsFromText text] =
      (extractKeywordsFromText text).map (fun k => (k, 1)) := by
    unfold keywordFrequency
    simp only [List.foldl_cons, List.foldl_nil]
    rw [foldl_bump_fresh _ [] hnd (by simp)]
    simp
  rw [h1]
  rw [List.filter_eq_self.mpr ?allpass]
  case allpass =>
    intro e he
    rcases List.mem_map.mp he with ⟨k, _, rfl⟩
    rfl
  rw [insertionSort_all_ones _ ?ones]
  case ones =>
    intro e he
    rcases List.mem_map.mp he with ⟨k, _, rfl⟩
    rfl
  rw [List.map_map]
  have hmapid : (Prod.fst ∘ fun k : String => (k, 1)) = id := rfl
  rw [hmapid, List.map_id]

theorem consensus_min_places (texts : List (List String)) (t : String)
    (h : t ∈ consensusOf texts) :
    Nat.min 2 texts.length ≤ presentCount t texts := by
  unfold consensusOf consensusKeywords at h
  have h1 := List.mem_of_mem_take h
  rcases List.mem_map.mp h1 with ⟨e, he, rfl⟩
  rw [List.mem_insertionSort] at he
  have h2 := List.mem_filter.mp he
  have h3 : Nat.min 2 texts.length ≤ e.2 := by
    have := h2.2
    simp only [decide_eq_true_eq] at this
    simpa using this
  rw [← presentCount_of_entry texts e h2.1] at h3
  simpa using h3

theorem consensus_pairwise (texts : List (List String)) :
    List.Pairwise (fun a b => presentCount b texts ≤ presentCount a texts)
      (consensusOf texts) := by
  haveI : IsTotal (String × Nat) countDescOrder := ⟨fun a b => Nat.le_total b.2 a.2⟩
  haveI : IsTrans (String × Nat) countDescOrder :=
    ⟨fun _ _ _ hab hbc => Nat.le_trans hbc hab⟩
  unfold consensusOf consensusKeywords
  refine List.Pairwise.sublist (List.take_sublist _ _) ?_
  rw [List.pairwise_map]
  refine List.Pairwise.imp_of_mem ?_ (List.sorted_insertionSort countDescOrder _)
  intro a b ha hb hr
  rw [List.mem_insertionSort] at ha hb
  have hpa := presentCount_of_entry texts a (List.mem_filter.mp ha).1
  have hpb := presentCount_of_entry texts b (List.mem_filter.mp hb).1
  rw [hpa, hpb]
  exact hr

/-- C6 (amended): a term counts as present for a source place only if it
occurs at least twice in that place's review text, and only the first 5
qualifying vocabulary terms count per place (`slice(0, 5)`); a term is
promoted to consensus only if present in at least `min 2 numberOfPlaces`
distinct source places; with a single source place the promoted terms are
exactly the extracted terms truncated to the top 3; with three source places
a term present in only one place is never promoted; and the consensus list is
ranked by cross-place frequency (descending) and truncated to the top 3. -/
theorem keyword_consensus_thresholds :
    (∀ (ty : EstablishmentType) (t : String) (text : List String),
        t ∈ extractKeywordsFromText text ty →
        2 ≤ countOcc (termWords t) (text.map lowerString)) ∧
    (∀ (texts : List (List String)) (t : String),
        t ∈ consensusOf texts →
        Nat.min 2 texts.length ≤ presentCount t texts) ∧
    (∀ text : List String,
        consensusOf [text] = (extractKeywordsFromText text).take 3) ∧
    (∀ (texts : List (List String)) (t : String), texts.length = 3 →
        presentCount t texts = 1 →
        decide (t ∈ consensusOf texts) = false) ∧
    (∀ texts : List (List String), (consensusOf texts).length ≤ 3 ∧
        List.Pairwise (fun a b => presentCount b texts ≤ presentCount a texts)
          (consensusOf texts)) := by
  refine ⟨?_, consensus_min_places, consensusOf_single, ?_, ?_⟩
  · intro ty t text h
    simp only [extractKeywordsFromText] at h
    have h1 := List.mem_of_mem_take h
    have h2 := (List.mem_filter.mp h1).2
    exact of_decide_eq_true h2
  · intro texts t hlen hp
    apply decide_eq_false
    intro hmem
    have h2 := consensus_min_places texts t hmem
    rw [hlen, hp] at h2
    exact absurd h2 (by decide)
  · intro texts
    refine ⟨?_, consensus_pairwise texts⟩
    simp only [consensusOf, consensusKeywords]
    exact List.length_take_le _ _

/-- Counterexample to C6 as stated: with a single source place whose review
text holds six vocabulary terms twice each, "rustic" occurs twice yet is not
promoted — the per-place extraction keeps only the first 5 qualifying
vocabulary terms, so "rustic" never reaches the consensus stage at all. -/
theorem keyword_consensus_cap_counterexample :
    2 ≤ countOcc (termWords "rustic") (c6Text.map lowerString) ∧
    decide ("rustic" ∈ extractKeywordsFromText c6Text) = false ∧
    decide ("rustic" ∈ consensusOf [c6Text]) = false := by
  refine ⟨by decide, by decide, by decide⟩

/-- Witness for the amended C6 at concrete inputs. -/
theorem keyword_consensus_thresholds_witness :
    2 ≤ countOcc (termWords "cozy") (["cozy", "warm", "cozy"].map lowerString) ∧
    consensusOf [["cozy", "cozy", "quiet", "quiet"]] =
      (extractKeywordsFromText ["cozy", "cozy", "quiet", "quiet"]).take 3 ∧
    decide ("espresso" ∈ consensusOf [["espresso", "espresso"], [], []]) = false :=
  ⟨keyword_consensus_thresholds.1 .cafe "cozy" ["cozy", "warm", "cozy"] (by decide),
   keyword_consensus_thresholds.2.2.1 _,
   keyword_consensus_thresholds.2.2.2.1 [["espresso", "espresso"], [], []]
     "espresso" rfl (by decide)⟩

/-! ## C7 — composition of the final keyword list -/

/-- Counterexample to C7 as stated: with two consensus terms and no free
text, the code's list keeps only ONE consensus term — `slice(0, 3)` is
applied to the extractor output, whose first two entries are the base terms —
while the claim's list keeps both. -/
theorem final_keyword_list_counterexample :
    customKeywordsOf (extractKeywordsFromMultipleCafes c7Texts emptyVibes) [] =
      ["cafe", "coffee", "cozy"] ∧
    claimedFinalKeywords (consensusOf c7Texts) [] =
      ["cafe", "coffee", "cozy", "quiet"] ∧
    decide (customKeywordsOf (extractKeywordsFromMultipleCafes c7Texts emptyVibes) [] =
        claimedFinalKeywords (consensusOf c7Texts) []) = false := by
  refine ⟨by decide, by decide, by decide⟩

/-- C7 (amended): the final keyword list supplied to candidate search is the
first 3 terms of the extractor output — the two category base terms followed
by at most ONE consensus term — then at most 2 free-text-derived terms, and
it holds at most 5 terms in total INCLUDING the base terms. -/
theorem final_keyword_list_structure (texts : List (List String))
    (freeTextKw : List String) :
    customKeywordsOf (extractKeywordsFromMultipleCafes texts emptyVibes) freeTextKw =
      ("cafe" :: "coffee" :: (consensusOf texts).take 1) ++ freeTextKw.take 2 ∧
    (customKeywordsOf (extractKeywordsFromMultipleCafes texts emptyVibes)
        freeTextKw).length ≤ 5 := by
  constructor
  · show (((["cafe", "coffee"] ++ buildVibeKeywords emptyVibes ++ consensusOf texts).take 3)
        ++ freeTextKw.take 2).take 5 = _
    have hvibes : buildVibeKeywords emptyVibes = [] := rfl
    rw [hvibes]
    show ("cafe" :: "coffee" :: ((consensusOf texts).take 1 ++ freeTextKw.take 2)).take 5 = _
    show "cafe" :: "coffee" :: ((consensusOf texts).take 1 ++ freeTextKw.take 2).take 3 = _
    rw [List.take_of_length_le ?hlen]
    · rfl
    case hlen =>
      rw [List.length_append]
      have h1 := List.length_take_le 1 (consensusOf texts)
      have h2 := List.length_take_le 2 freeTextKw
      omega
  · simp only [customKeywordsOf]
    exact List.length_take_le _ _

/-! ## C8 — review extraction always uses the cafe vocabulary -/

/-- C8 evaluated at the failing input: `extractKeywordsFromReviews` passes no
establishment type, so extraction always uses the `cafe` default vocabulary;
"cocktails", mentioned twice in a source place's reviews for a `bar` search,
is not extracted, although the bar vocabulary — which the claim says is used —
contains it. -/
theorem review_extraction_uses_fixed_cafe_vocabulary :
    (∀ text : List String,
        extractKeywordsFromReviews text = extractKeywordsFromText text .cafe) ∧
    decide ("cocktails" ∈ extractKeywordsFromReviews ["cocktails", "cocktails"]) = false ∧
    decide ("cocktails" ∈
        extractKeywordsFromText ["cocktails", "cocktails"] .bar) = true :=
  ⟨fun _ => rfl, by decide, by decide⟩

end Loca

